import Mathlib

/-!
Verification development for the pixel-processing core of the `graphics`
crate: blend-mode enumeration and parsing, the layer compositor
(`composite` / `draw_layer_over_image` / `blend_colors`), the colour
conversion layer (`RgbaColor`, `RgbColor`), and the scanline flood fill
(`flood_fill_in_bounds`).

Modelling conventions.
* `u8` bytes are `Nat`; where a claim needs byte-ness it carries `≤ 255`
  hypotheses (or concrete data).
* `f32` arithmetic is modelled exactly over `ℚ`.  `f32::round` rounds half
  away from zero (`roundAway`); Rust's saturating float-to-`u8` `as` cast is
  `satU8`.  Division over `ℚ` is total with `x / 0 = 0`, whereas `f32`
  produces infinities or NaN; no claim below exercises a division-by-zero
  or square-root path.
* In-place mutation of pixel buffers is modelled by explicit state passing
  over `List Nat`; `List.set` ignores out-of-range writes, where Rust's
  indexed assignment would panic — the claims below only exercise in-range
  writes (or runs that write nothing).
* The two unbounded `while` loops of the flood fill take an explicit fuel
  argument; running out of fuel is reported as a distinguished non-error
  outcome, so termination facts are stated as "for every sufficient fuel".
-/

namespace Graphics

/-- Rust `f32::round`: round to the nearest integer, ties away from zero. -/
def roundAway (q : ℚ) : ℤ :=
  if 0 ≤ q then ⌊q + 1/2⌋ else -⌊-q + 1/2⌋

/-- Rust saturating float-to-`u8` cast (`as u8` after rounding): values below
zero clamp to 0, values above 255 clamp to 255. -/
def satU8 (z : ℤ) : Nat :=
  min z.toNat 255

-- MARK: Geometry (src/geometry/{point,size,rect}.rs, the instantiations the core uses)

/-- `Point<i32>`. -/
structure PointI where
  x : ℤ
  y : ℤ
deriving DecidableEq, Repr

/-- `Point<f32>`, modelled over `ℚ`. -/
structure PointQ where
  x : ℚ
  y : ℚ
deriving DecidableEq, Repr

/-- `Point::rounded` for a float point. -/
def PointQ.rounded (p : PointQ) : PointI :=
  ⟨roundAway p.x, roundAway p.y⟩

/-- `Size<u32>`. -/
structure Size where
  width : Nat
  height : Nat
deriving DecidableEq, Repr

/-- `Size<i32>`. -/
structure SizeI where
  width : ℤ
  height : ℤ
deriving DecidableEq, Repr

/-- `Size<f32>`, modelled over `ℚ`. -/
structure SizeQ where
  width : ℚ
  height : ℚ
deriving DecidableEq, Repr

/-- `Rect<i32>`. -/
structure RectI where
  origin : PointI
  size : SizeI
deriving DecidableEq, Repr

/-- `Rect::new`. -/
def RectI.new (x y width height : ℤ) : RectI :=
  ⟨⟨x, y⟩, ⟨width, height⟩⟩

/-- `Rect::min_x`. -/
def RectI.min_x (r : RectI) : ℤ :=
  min (r.origin.x + r.size.width) r.origin.x

/-- `Rect::max_x`. -/
def RectI.max_x (r : RectI) : ℤ :=
  max (r.origin.x + r.size.width) r.origin.x

/-- `Rect::min_y`. -/
def RectI.min_y (r : RectI) : ℤ :=
  min (r.origin.y + r.size.height) r.origin.y

/-- `Rect::max_y`. -/
def RectI.max_y (r : RectI) : ℤ :=
  max (r.origin.y + r.size.height) r.origin.y

/-- `Rect::contains` (note: inclusive of the far edges, as in the source). -/
def RectI.contains (r : RectI) (p : PointI) : Prop :=
  p.x ≥ r.min_x ∧ p.y ≥ r.min_y ∧ p.x ≤ r.max_x ∧ p.y ≤ r.max_y

instance (r : RectI) (p : PointI) : Decidable (r.contains p) := by
  unfold RectI.contains; infer_instance

/-- `Rect::intersection`. -/
def RectI.intersection (r other : RectI) : Option RectI :=
  let minX := max r.min_x other.min_x
  let maxX := min r.max_x other.max_x
  let minY := max r.min_y other.min_y
  let maxY := min r.max_y other.max_y
  let width := maxX - minX
  let height := maxY - minY
  if width < 0 ∨ height < 0 then none
  else some (RectI.new minX minY width height)

-- MARK: Colour (src/color.rs)

/-- `Color`: four `u8` channels, red/green/blue/alpha. -/
structure Color where
  red : Nat
  green : Nat
  blue : Nat
  alpha : Nat
deriving DecidableEq, Repr

/-- `Color::as_rgba_u32`. -/
def Color.as_rgba_u32 (c : Color) : Nat :=
  c.red * 2 ^ 24 + c.green * 2 ^ 16 + c.blue * 2 ^ 8 + c.alpha

-- MARK: Blend mode (src/blend_mode.rs)

/-- `BlendMode`: the closed enumeration of the 22 blend modes. -/
inductive BlendMode where
  | Addition
  | Color
  | ColorBurn
  | ColorDodge
  | Darken
  | Difference
  | Divide
  | Exclusion
  | HardLight
  | Hue
  | Lighten
  | Luminosity
  | Multiply
  | Normal
  | Overlay
  | PassThrough
  | Saturation
  | Screen
  | SoftLight
  | Subtract
  | DestinationIn
  | DestinationOut
deriving DecidableEq, Repr

/-- The `#[repr(u32)]` discriminant of each variant (`m as u32`). -/
def BlendMode.toPrimitive : BlendMode → Nat
  | .Addition => 16
  | .Color => 14
  | .ColorBurn => 7
  | .ColorDodge => 6
  | .Darken => 4
  | .Difference => 10
  | .Divide => 18
  | .Exclusion => 11
  | .HardLight => 8
  | .Hue => 12
  | .Lighten => 5
  | .Luminosity => 15
  | .Multiply => 1
  | .Normal => 0
  | .Overlay => 3
  | .PassThrough => 19
  | .Saturation => 13
  | .Screen => 2
  | .SoftLight => 9
  | .Subtract => 17
  | .DestinationIn => 20
  | .DestinationOut => 21

/-- `BlendMode::from_primitive`. -/
def BlendMode.from_primitive (value : Nat) : Option BlendMode :=
  if value = 0 then some .Normal
  else if value = 1 then some .Multiply
  else if value = 2 then some .Screen
  else if value = 3 then some .Overlay
  else if value = 4 then some .Darken
  else if value = 5 then some .Lighten
  else if value = 6 then some .ColorDodge
  else if value = 7 then some .ColorBurn
  else if value = 8 then some .HardLight
  else if value = 9 then some .SoftLight
  else if value = 10 then some .Difference
  else if value = 11 then some .Exclusion
  else if value = 12 then some .Hue
  else if value = 13 then some .Saturation
  else if value = 14 then some .Color
  else if value = 15 then some .Luminosity
  else if value = 16 then some .Addition
  else if value = 17 then some .Subtract
  else if value = 18 then some .Divide
  else if value = 19 then some .PassThrough
  else if value = 20 then some .DestinationIn
  else if value = 21 then some .DestinationOut
  else none

/-- `BlendMode::as_str`. -/
def BlendMode.as_str : BlendMode → String
  | .Addition => "addition"
  | .Color => "color"
  | .ColorBurn => "color-burn"
  | .ColorDodge => "color-dodge"
  | .Darken => "darken"
  | .DestinationIn => "destination-in"
  | .DestinationOut => "destination-out"
  | .Difference => "difference"
  | .Divide => "divide"
  | .Exclusion => "exclusion"
  | .HardLight => "hard-light"
  | .Hue => "hue"
  | .Lighten => "lighten"
  | .Luminosity => "luminosity"
  | .Multiply => "multiply"
  | .Normal => "normal"
  | .Overlay => "overlay"
  | .PassThrough => "pass-through"
  | .Saturation => "saturation"
  | .Screen => "screen"
  | .SoftLight => "soft-light"
  | .Subtract => "subtract"

/-- `BlendMode::from_str`.  Faithful to the source match, which has no arm
for the colour-dodge spellings and accepts the misspelling "pass_trough". -/
def BlendMode.from_str (string : String) : Option BlendMode :=
  if string = "addition" then some .Addition
  else if string = "color" then some .Color
  else if string = "colorBurn" ∨ string = "color_burn" ∨ string = "color-burn" then
    some .ColorBurn
  else if string = "darken" then some .Darken
  else if string = "destinationIn" ∨ string = "destination_in" ∨ string = "destination-in" then
    some .DestinationIn
  else if string = "destinationOut" ∨ string = "destination_out" ∨ string = "destination-out" then
    some .DestinationOut
  else if string = "difference" then some .Difference
  else if string = "divide" then some .Divide
  else if string = "exclusion" then some .Exclusion
  else if string = "hardLight" ∨ string = "hard_light" ∨ string = "hard-light" then
    some .HardLight
  else if string = "hue" then some .Hue
  else if string = "lighten" then some .Lighten
  else if string = "luminosity" then some .Luminosity
  else if string = "multiply" then some .Multiply
  else if string = "normal" then some .Normal
  else if string = "overlay" then some .Overlay
  else if string = "passThrough" ∨ string = "pass_trough" ∨ string = "pass-through" then
    some .PassThrough
  else if string = "saturation" then some .Saturation
  else if string = "screen" then some .Screen
  else if string = "softLight" ∨ string = "soft_light" ∨ string = "soft-light" then
    some .SoftLight
  else if string = "subtract" then some .Subtract
  else none

/-- `BlendMode::is_porter_duff`. -/
def BlendMode.is_porter_duff : BlendMode → Bool
  | .DestinationIn | .DestinationOut => true
  | _ => false

-- MARK: Colour conversion (src/composite/blend/{rgba_color,rgb_color}.rs)

/-- `RgbaColor`: the float RGBA colour used in blend math, over `ℚ`. -/
structure RgbaColor where
  red : ℚ
  green : ℚ
  blue : ℚ
  alpha : ℚ
deriving DecidableEq, Repr

/-- `RgbaColor::premultiply`. -/
def RgbaColor.premultiply (c : RgbaColor) : RgbaColor :=
  if c.alpha < 1 ∧ 0 < c.alpha then
    { c with red := c.red * c.alpha, green := c.green * c.alpha, blue := c.blue * c.alpha }
  else c

/-- `RgbaColor::unpremultiply`. -/
def RgbaColor.unpremultiply (c : RgbaColor) : RgbaColor :=
  if c.alpha < 1 ∧ 0 < c.alpha then
    { c with red := c.red / c.alpha, green := c.green / c.alpha, blue := c.blue / c.alpha }
  else c

/-- `RgbaColor::from(&Color)`: divide every channel by 255. -/
def RgbaColor.fromColor (c : Color) : RgbaColor :=
  ⟨(c.red : ℚ) / 255, (c.green : ℚ) / 255, (c.blue : ℚ) / 255, (c.alpha : ℚ) / 255⟩

/-- `RgbaColor::to_color`: multiply by 255, round, cast to `u8`
(a saturating cast in Rust). -/
def RgbaColor.to_color (c : RgbaColor) : Color :=
  ⟨satU8 (roundAway (c.red * 255)), satU8 (roundAway (c.green * 255)),
    satU8 (roundAway (c.blue * 255)), satU8 (roundAway (c.alpha * 255))⟩

/-- `Mul<f32> for RgbaColor`. -/
def RgbaColor.mulScalar (c : RgbaColor) (rhs : ℚ) : RgbaColor :=
  ⟨c.red * rhs, c.green * rhs, c.blue * rhs, c.alpha * rhs⟩

/-- `Add for RgbaColor`. -/
def RgbaColor.add (c rhs : RgbaColor) : RgbaColor :=
  ⟨c.red + rhs.red, c.green + rhs.green, c.blue + rhs.blue, c.alpha + rhs.alpha⟩

/-- `RgbColor`: the float RGB colour used in blend math, over `ℚ`. -/
structure RgbColor where
  red : ℚ
  green : ℚ
  blue : ℚ
deriving DecidableEq, Repr

/-- `RgbColor::new`. -/
def RgbColor.new (red green blue : ℚ) : RgbColor :=
  ⟨red, green, blue⟩

/-- `RgbColor::from_rgba_color`. -/
def RgbColor.from_rgba_color (c : RgbaColor) : RgbColor :=
  ⟨c.red, c.green, c.blue⟩

/-- `From<RgbColor> for RgbaColor`: alpha becomes 1. -/
def RgbaColor.ofRgbColor (c : RgbColor) : RgbaColor :=
  ⟨c.red, c.green, c.blue, 1⟩

/-- `RgbColor::add` (component-wise). -/
def RgbColor.add (c other : RgbColor) : RgbColor :=
  ⟨c.red + other.red, c.green + other.green, c.blue + other.blue⟩

/-- `RgbColor::subtract` (component-wise). -/
def RgbColor.subtract (c other : RgbColor) : RgbColor :=
  ⟨c.red - other.red, c.green - other.green, c.blue - other.blue⟩

/-- `Mul<RgbColor> for RgbColor` (component-wise). -/
def RgbColor.mul (c other : RgbColor) : RgbColor :=
  ⟨c.red * other.red, c.green * other.green, c.blue * other.blue⟩

/-- `Mul<f32> for RgbColor`. -/
def RgbColor.mulScalar (c : RgbColor) (rhs : ℚ) : RgbColor :=
  ⟨c.red * rhs, c.green * rhs, c.blue * rhs⟩

/-- `RgbColor::clamp`: clamp every channel to [0, 1]. -/
def RgbColor.clamp (c : RgbColor) : RgbColor :=
  ⟨min (max c.red 0) 1, min (max c.green 0) 1, min (max c.blue 0) 1⟩

/-- `RgbColor::abs`. -/
def RgbColor.abs (c : RgbColor) : RgbColor :=
  ⟨|c.red|, |c.green|, |c.blue|⟩

/-- `RgbColor::rounded`: every channel rounded (`f32::round`). -/
def RgbColor.rounded (c : RgbColor) : RgbColor :=
  ⟨(roundAway c.red : ℚ), (roundAway c.green : ℚ), (roundAway c.blue : ℚ)⟩

-- MARK: Blend mode library (src/composite/blend/mod.rs)

namespace blend

/-- The sRGB gamma values (`GAMMA_VALUES`). -/
def GAMMA_VALUES : RgbColor :=
  ⟨3/10, 59/100, 11/100⟩

/-- `calculate_luminance`. -/
def calculate_luminance (color : RgbColor) : ℚ :=
  GAMMA_VALUES.red * color.red + GAMMA_VALUES.green * color.green +
    GAMMA_VALUES.blue * color.blue

/-- `clip_color`.  The divisions are total over `ℚ` (`x / 0 = 0`), where
`f32` would produce non-finite values; no claim exercises that case. -/
def clip_color (color : RgbColor) : RgbColor :=
  let luminance := calculate_luminance color
  let n := min (min color.red color.green) color.blue
  let x := max (max color.red color.green) color.blue
  let color :=
    if n < 0 then
      RgbColor.new (luminance + ((color.red - luminance) * luminance) / (luminance - n))
        (luminance + ((color.green - luminance) * luminance) / (luminance - n))
        (luminance + ((color.blue - luminance) * luminance) / (luminance - n))
    else color
  if x > 1 then
    RgbColor.new (luminance + ((color.red - luminance) * (1 - luminance)) / (x - luminance))
      (luminance + ((color.green - luminance) * (1 - luminance)) / (x - luminance))
      (luminance + ((color.blue - luminance) * (1 - luminance)) / (x - luminance))
  else color

/-- `set_luminance`. -/
def set_luminance (color : RgbColor) (luminance : ℚ) : RgbColor :=
  let delta := luminance - calculate_luminance color
  clip_color ⟨color.red + delta, color.green + delta, color.blue + delta⟩

/-- `calculate_saturation`. -/
def calculate_saturation (color : RgbColor) : ℚ :=
  max (max color.red color.green) color.blue - min (min color.red color.green) color.blue

/-- `set_saturation`, including the source's stabilising tie-break that
compares channels only after scaling by 255 and rounding. -/
def set_saturation (color : RgbColor) (saturation : ℚ) : RgbColor :=
  let max_value := max color.red (max color.green color.blue)
  let min_value := min color.red (min color.green color.blue)
  let mid_value := (color.red + color.green + color.blue) - (max_value + min_value)
  let rounded_values := ((RgbColor.new min_value mid_value max_value).mulScalar 255).rounded
  let rounded_max := rounded_values.blue
  let rounded_mid := rounded_values.green
  let rounded_color := (color.mulScalar 255).rounded
  let new_mid : ℚ :=
    if max_value > min_value then ((mid_value - min_value) * saturation) / (max_value - min_value)
    else 0
  let new_max : ℚ := if max_value > min_value then saturation else 0
  let new_min : ℚ := 0
  let red :=
    if rounded_color.red = rounded_max then new_max
    else if rounded_color.red = rounded_mid then new_mid
    else new_min
  let green :=
    if rounded_color.green = rounded_max then new_max
    else if rounded_color.green = rounded_mid then new_mid
    else new_min
  let blue :=
    if rounded_color.blue = rounded_max then new_max
    else if rounded_color.blue = rounded_mid then new_mid
    else new_min
  ⟨red, green, blue⟩

/-- `addition`. -/
def addition (color blend : RgbColor) : RgbColor :=
  (color.add blend).clamp

/-- `color` (the Color blend mode). -/
def color (color blend : RgbColor) : RgbColor :=
  set_luminance blend (calculate_luminance color)

/-- `color_burn_value`. -/
def color_burn_value (base blend : ℚ) : ℚ :=
  if base = 1 then base
  else if blend = 0 then blend
  else max (1 - (1 - base) / blend) 0

/-- `color_burn`. -/
def color_burn (color blend : RgbColor) : RgbColor :=
  ⟨color_burn_value color.red blend.red, color_burn_value color.green blend.green,
    color_burn_value color.blue blend.blue⟩

/-- `color_dodge_value`. -/
def color_dodge_value (base blend : ℚ) : ℚ :=
  if blend ≥ 1 then 1
  else min (base / (1 - blend)) 1

/-- `color_dodge`. -/
def color_dodge (color blend : RgbColor) : RgbColor :=
  ⟨color_dodge_value color.red blend.red, color_dodge_value color.green blend.green,
    color_dodge_value color.blue blend.blue⟩

/-- `darken_value`. -/
def darken_value (base blend : ℚ) : ℚ :=
  min blend base

/-- `darken`. -/
def darken (color blend : RgbColor) : RgbColor :=
  ⟨darken_value color.red blend.red, darken_value color.green blend.green,
    darken_value color.blue blend.blue⟩

/-- `destination_in`: only the alpha channel changes. -/
def destination_in (color blend : RgbaColor) (opacity : ℚ) : RgbaColor :=
  { color with alpha := color.alpha * (blend.alpha * opacity) }

/-- `destination_out`: only the alpha channel changes. -/
def destination_out (color blend : RgbaColor) (opacity : ℚ) : RgbaColor :=
  { color with alpha := color.alpha * (opacity * (1 - blend.alpha)) }

/-- `difference`. -/
def difference (color blend : RgbColor) : RgbColor :=
  (color.subtract blend).abs

/-- `divide_value`. -/
def divide_value (base blend : ℚ) : ℚ :=
  if blend = 1 then blend
  else if base = 0 then 0
  else min (base / blend) 1

/-- `divide`. -/
def divide (color blend : RgbColor) : RgbColor :=
  ⟨divide_value color.red blend.red, divide_value color.green blend.green,
    divide_value color.blue blend.blue⟩

/-- `exclusion`: `base + blend - base*blend*2`. -/
def exclusion (color blend : RgbColor) : RgbColor :=
  (color.add blend).subtract ((color.mul blend).mulScalar 2)

/-- `overlay_value`. -/
def overlay_value (base blend : ℚ) : ℚ :=
  if base < 1/2 then 2 * base * blend
  else 1 - 2 * (1 - base) * (1 - blend)

/-- `hard_light`: overlay with the arguments swapped. -/
def hard_light (color blend : RgbColor) : RgbColor :=
  ⟨overlay_value blend.red color.red, overlay_value blend.green color.green,
    overlay_value blend.blue color.blue⟩

/-- `hue`. -/
def hue (color blend : RgbColor) : RgbColor :=
  set_luminance (set_saturation blend (calculate_saturation color)) (calculate_luminance color)

/-- `lighten_value`. -/
def lighten_value (base blend : ℚ) : ℚ :=
  max blend base

/-- `lighten`. -/
def lighten (color blend : RgbColor) : RgbColor :=
  ⟨lighten_value color.red blend.red, lighten_value color.green blend.green,
    lighten_value color.blue blend.blue⟩

/-- `luminosity`. -/
def luminosity (color blend : RgbColor) : RgbColor :=
  set_luminance color (calculate_luminance blend)

/-- `multiply`. -/
def multiply (color blend : RgbColor) : RgbColor :=
  color.mul blend

/-- `overlay`. -/
def overlay (color blend : RgbColor) : RgbColor :=
  ⟨overlay_value color.red blend.red, overlay_value color.green blend.green,
    overlay_value color.blue blend.blue⟩

/-- `saturation` (the Saturation blend mode). -/
def saturation (color blend : RgbColor) : RgbColor :=
  set_luminance (set_saturation color (calculate_saturation blend)) (calculate_luminance color)

/-- `screen_value`. -/
def screen_value (base blend : ℚ) : ℚ :=
  1 - (1 - base) * (1 - blend)

/-- `screen`. -/
def screen (color blend : RgbColor) : RgbColor :=
  ⟨screen_value color.red blend.red, screen_value color.green blend.green,
    screen_value color.blue blend.blue⟩

/-- Stand-in for `f32::sqrt`, which has no exact counterpart over `ℚ`:
an integer-square-root approximation.  It is reached only through the
SoftLight mode, which no claim in this development exercises. -/
def ratSqrt (q : ℚ) : ℚ :=
  (Nat.sqrt (q.num.toNat * q.den) : ℚ) / (q.den : ℚ)

/-- `soft_light_component` (the W3C `D` function). -/
def soft_light_component (base : ℚ) : ℚ :=
  if base ≤ 1/4 then ((16 * base - 12) * base + 4) * base
  else ratSqrt base

/-- `soft_light_value` (the W3C formula). -/
def soft_light_value (base blend : ℚ) : ℚ :=
  if blend ≤ 1/2 then base - (1 - 2 * blend) * base * (1 - base)
  else base + (2 * blend - 1) * (soft_light_component base - base)

/-- `soft_light`. -/
def soft_light (color blend : RgbColor) : RgbColor :=
  ⟨soft_light_value color.red blend.red, soft_light_value color.green blend.green,
    soft_light_value color.blue blend.blue⟩

/-- `subtract`. -/
def subtract (color blend : RgbColor) : RgbColor :=
  (color.subtract blend).clamp

end blend

-- MARK: Compositor pixel math (src/composite/compositor.rs, `blend_colors`)

/-- `blend_colors`: blends one colour with another under a blend mode and
layer opacity.  Mirrors the source: the fully-transparent fast path, the
per-mode RGB (or Porter-Duff RGBA) stage, then — for non-Porter-Duff
modes — the source-over alpha recombination and unpremultiply. -/
def blend_colors (color blend_color : Color) (blend_mode : BlendMode) (opacity : ℚ) : Color :=
  if color.alpha = 0 ∧ blend_color.alpha = 0 then color
  else
    let base_rgba := RgbaColor.fromColor color
    let blend_rgba := RgbaColor.fromColor blend_color
    let base_rgb := RgbColor.from_rgba_color base_rgba
    let blend_rgb := RgbColor.from_rgba_color blend_rgba
    let base_rgb :=
      match blend_mode with
      | .Addition => blend.addition base_rgb blend_rgb
      | .Color => blend.color base_rgb blend_rgb
      | .ColorBurn => blend.color_burn base_rgb blend_rgb
      | .ColorDodge => blend.color_dodge base_rgb blend_rgb
      | .Darken => blend.darken base_rgb blend_rgb
      | .Difference => blend.difference base_rgb blend_rgb
      | .Divide => blend.divide base_rgb blend_rgb
      | .DestinationIn => base_rgb
      | .DestinationOut => base_rgb
      | .Exclusion => blend.exclusion base_rgb blend_rgb
      | .HardLight => blend.hard_light base_rgb blend_rgb
      | .Hue => blend.hue base_rgb blend_rgb
      | .Lighten => blend.lighten base_rgb blend_rgb
      | .Luminosity => blend.luminosity base_rgb blend_rgb
      | .Multiply => blend.multiply base_rgb blend_rgb
      | .Normal => blend_rgb
      | .PassThrough => blend_rgb
      | .Overlay => blend.overlay base_rgb blend_rgb
      | .Saturation => blend.saturation base_rgb blend_rgb
      | .Screen => blend.screen base_rgb blend_rgb
      | .SoftLight => blend.soft_light base_rgb blend_rgb
      | .Subtract => blend.subtract base_rgb blend_rgb
    let base_rgba :=
      match blend_mode with
      | .DestinationIn => blend.destination_in base_rgba blend_rgba opacity
      | .DestinationOut => blend.destination_out base_rgba blend_rgba opacity
      | _ => base_rgba
    if blend_mode.is_porter_duff then base_rgba.to_color
    else
      let blend_alpha := opacity * blend_rgba.alpha
      let base_alpha := base_rgba.alpha
      let blend_rgba := { blend_rgba with alpha := 1 }
      let base_rgba := { base_rgba with alpha := 1 }
      let output := RgbaColor.ofRgbColor base_rgb
      let output := (blend_rgba.mulScalar (1 - base_alpha)).add (output.mulScalar base_alpha)
      let output := (output.mulScalar blend_alpha).add
        (base_rgba.mulScalar (base_alpha * (1 - blend_alpha)))
      output.unpremultiply.to_color

-- MARK: Rounding helper lemmas

theorem roundAway_natCast (n : Nat) : roundAway (n : ℚ) = n := by
  unfold roundAway
  rw [if_pos (by positivity)]
  refine Int.floor_eq_iff.mpr ⟨by push_cast; linarith, by push_cast; linarith⟩

theorem roundAway_zero : roundAway (0 : ℚ) = 0 := by
  simpa using roundAway_natCast 0

theorem roundAway_nonneg {q : ℚ} (h : 0 ≤ q) : 0 ≤ roundAway q := by
  unfold roundAway
  rw [if_pos h]
  have : (0 : ℚ) ≤ q + 1/2 := by linarith
  exact_mod_cast Int.floor_nonneg.mpr this

theorem roundAway_le {q : ℚ} {n : ℤ} (h0 : 0 ≤ q) (h : q ≤ n) : roundAway q ≤ n := by
  unfold roundAway
  rw [if_pos h0]
  have : q + 1/2 < n + 1 := by linarith
  exact Int.lt_add_one_iff.mp (Int.floor_lt.mpr (by push_cast at this ⊢; linarith))

theorem le_roundAway {q : ℚ} {n : ℤ} (h0 : 0 ≤ q) (h : (n : ℚ) ≤ q) : n ≤ roundAway q := by
  unfold roundAway
  rw [if_pos h0]
  exact Int.le_floor.mpr (by linarith)

theorem roundAway_nonpos {q : ℚ} (h : q ≤ 0) : roundAway q ≤ 0 := by
  rcases eq_or_lt_of_le h with h0 | h0
  · rw [h0, roundAway_zero]
  · unfold roundAway
    rw [if_neg (by linarith)]
    have : (0 : ℚ) ≤ -q + 1/2 := by linarith
    have := Int.floor_nonneg.mpr this
    omega

theorem satU8_eq_toNat {z : ℤ} (h : z ≤ 255) : satU8 z = z.toNat := by
  unfold satU8
  omega

theorem satU8_intCast {z : ℤ} (h0 : 0 ≤ z) (h : z ≤ 255) : (satU8 z : ℤ) = z := by
  unfold satU8
  omega

/-- Reading back a byte: `to_color` on a channel that stores `n/255` for a
byte `n ≤ 255` returns exactly `n`. -/
theorem satU8_roundAway_byte {n : Nat} (h : n ≤ 255) :
    satU8 (roundAway ((n : ℚ) / 255 * 255)) = n := by
  have h255 : ((n : ℚ) / 255 * 255) = (n : ℚ) := by field_simp
  rw [h255, roundAway_natCast]
  unfold satU8
  omega

-- MARK: C8 — saturating integer boundary in `to_color`

/-- The spec-side description of the integer boundary: scale by 255, round
to nearest (away from zero), then clamp into [0, 255] before truncation. -/
def specClampedByte (q : ℚ) : Nat :=
  (max 0 (min 255 (roundAway (q * 255)))).toNat

/-- C8.  `RgbaColor::to_color` produces every output byte as
round(channel × 255) saturated to [0, 255]: each channel agrees with the
spec-side clamped conversion, any channel at or above 1 maps to byte 255,
and any channel at or below 0 maps to byte 0 — no wraparound. -/
theorem to_color_saturates (c : RgbaColor) :
    c.to_color = ⟨specClampedByte c.red, specClampedByte c.green,
      specClampedByte c.blue, specClampedByte c.alpha⟩ ∧
    (1 ≤ c.red → c.to_color.red = 255) ∧
    (c.red ≤ 0 → c.to_color.red = 0) := by
  have key : ∀ q : ℚ, satU8 (roundAway (q * 255)) = specClampedByte q := by
    intro q
    unfold satU8 specClampedByte
    omega
  have hred : c.to_color.red = satU8 (roundAway (c.red * 255)) := rfl
  refine ⟨?_, ?_, ?_⟩
  · unfold RgbaColor.to_color
    rw [key, key, key, key]
  · intro h
    have h1 : (0 : ℚ) ≤ c.red * 255 := by nlinarith
    have h2 : ((255 : ℤ) : ℚ) ≤ c.red * 255 := by push_cast; nlinarith
    have h3 := le_roundAway h1 h2
    rw [hred]
    unfold satU8
    omega
  · intro h
    have h255 : c.red * 255 ≤ 0 := by nlinarith
    have h3 := roundAway_nonpos h255
    rw [hred]
    unfold satU8
    omega

/-- Witness for C8 at a concrete out-of-range colour: channel 2 saturates
to byte 255 instead of wrapping around. -/
theorem to_color_saturates_witness :
    ((⟨2, 0, 1, 1⟩ : RgbaColor).to_color).red = 255 :=
  (to_color_saturates ⟨2, 0, 1, 1⟩).2.1 (by norm_num)

-- MARK: C5 — Porter-Duff modes touch only the alpha byte

/-- Reduction of `blend_colors` for `DestinationIn` outside the
fully-transparent fast path. -/
theorem blend_colors_dest_in_eq (base top : Color) (opacity : ℚ)
    (h : ¬(base.alpha = 0 ∧ top.alpha = 0)) :
    blend_colors base top .DestinationIn opacity =
      (blend.destination_in (RgbaColor.fromColor base) (RgbaColor.fromColor top)
        opacity).to_color := by
  unfold blend_colors
  rw [if_neg h]
  rfl

/-- Reduction of `blend_colors` for `DestinationOut` outside the
fully-transparent fast path. -/
theorem blend_colors_dest_out_eq (base top : Color) (opacity : ℚ)
    (h : ¬(base.alpha = 0 ∧ top.alpha = 0)) :
    blend_colors base top .DestinationOut opacity =
      (blend.destination_out (RgbaColor.fromColor base) (RgbaColor.fromColor top)
        opacity).to_color := by
  unfold blend_colors
  rw [if_neg h]
  rfl

/-- A rounded byte arising from a fraction of coverage in [0, 1] is not
clamped, and casts back to the rounded integer. -/
theorem satU8_roundAway_unit {q : ℚ} (h0 : 0 ≤ q) (h1 : q ≤ 1) :
    (satU8 (roundAway (q * 255)) : ℤ) = roundAway (q * 255) := by
  refine satU8_intCast (roundAway_nonneg (by positivity)) (roundAway_le (by positivity) ?_)
  push_cast
  nlinarith

/-- C5.  For `DestinationIn` and `DestinationOut`, `blend_colors` leaves the
base pixel's red, green and blue bytes unchanged and sets the alpha byte to
round(255·aB·aS·op) resp. round(255·aB·op·(1−aS)) where aB, aS are the
normalised base and blend alphas; the Porter-Duff result is final (no
alpha-compositing or unpremultiply step is applied to it). -/
theorem blend_colors_porter_duff (base src : Color) (opacity : ℚ)
    (hr : base.red ≤ 255) (hg : base.green ≤ 255) (hb : base.blue ≤ 255)
    (ha : base.alpha ≤ 255) (hsa : src.alpha ≤ 255)
    (ho0 : 0 ≤ opacity) (ho1 : opacity ≤ 1) :
    (blend_colors base src .DestinationIn opacity).red = base.red ∧
    (blend_colors base src .DestinationIn opacity).green = base.green ∧
    (blend_colors base src .DestinationIn opacity).blue = base.blue ∧
    ((blend_colors base src .DestinationIn opacity).alpha : ℤ) =
      roundAway (255 * ((base.alpha : ℚ) / 255) * ((src.alpha : ℚ) / 255) * opacity) ∧
    (blend_colors base src .DestinationOut opacity).red = base.red ∧
    (blend_colors base src .DestinationOut opacity).green = base.green ∧
    (blend_colors base src .DestinationOut opacity).blue = base.blue ∧
    ((blend_colors base src .DestinationOut opacity).alpha : ℤ) =
      roundAway (255 * ((base.alpha : ℚ) / 255) * opacity * (1 - (src.alpha : ℚ) / 255)) := by
  have haQ0 : (0 : ℚ) ≤ (base.alpha : ℚ) / 255 := by positivity
  have haQ1 : (base.alpha : ℚ) / 255 ≤ 1 := by
    rw [div_le_one (by norm_num)]
    exact_mod_cast ha
  have hsQ0 : (0 : ℚ) ≤ (src.alpha : ℚ) / 255 := by positivity
  have hsQ1 : (src.alpha : ℚ) / 255 ≤ 1 := by
    rw [div_le_one (by norm_num)]
    exact_mod_cast hsa
  by_cases hzero : base.alpha = 0 ∧ src.alpha = 0
  · obtain ⟨hz1, hz2⟩ := hzero
    have e1 : blend_colors base src .DestinationIn opacity = base := by
      unfold blend_colors
      rw [if_pos ⟨hz1, hz2⟩]
    have e2 : blend_colors base src .DestinationOut opacity = base := by
      unfold blend_colors
      rw [if_pos ⟨hz1, hz2⟩]
    have v1 : roundAway (255 * ((base.alpha : ℚ) / 255) * ((src.alpha : ℚ) / 255) * opacity)
        = 0 := by
      rw [show (255 : ℚ) * ((base.alpha : ℚ) / 255) * ((src.alpha : ℚ) / 255) * opacity = 0
          from by rw [hz1]; push_cast; ring]
      exact roundAway_zero
    have v2 : roundAway (255 * ((base.alpha : ℚ) / 255) * opacity *
        (1 - (src.alpha : ℚ) / 255)) = 0 := by
      rw [show (255 : ℚ) * ((base.alpha : ℚ) / 255) * opacity *
            (1 - (src.alpha : ℚ) / 255) = 0
          from by rw [hz1]; push_cast; ring]
      exact roundAway_zero
    refine ⟨by rw [e1], by rw [e1], by rw [e1], ?_, by rw [e2], by rw [e2], by rw [e2], ?_⟩
    · rw [e1, v1, hz1]; rfl
    · rw [e2, v2, hz1]; rfl
  · have ein := blend_colors_dest_in_eq base src opacity hzero
    have eout := blend_colors_dest_out_eq base src opacity hzero
    have hso0 : (0 : ℚ) ≤ ((src.alpha : ℚ) / 255) * opacity :=
      mul_nonneg hsQ0 ho0
    have hso1 : ((src.alpha : ℚ) / 255) * opacity ≤ 1 := by
      nlinarith [mul_nonneg hsQ0 (sub_nonneg.mpr ho1)]
    have hqin0 : (0 : ℚ) ≤ ((base.alpha : ℚ) / 255) * (((src.alpha : ℚ) / 255) * opacity) :=
      mul_nonneg haQ0 hso0
    have hqin1 : ((base.alpha : ℚ) / 255) * (((src.alpha : ℚ) / 255) * opacity) ≤ 1 := by
      nlinarith [mul_nonneg (sub_nonneg.mpr haQ1) hso0]
    have hout0 : (0 : ℚ) ≤ opacity * (1 - (src.alpha : ℚ) / 255) :=
      mul_nonneg ho0 (by linarith)
    have hout1 : opacity * (1 - (src.alpha : ℚ) / 255) ≤ 1 := by
      nlinarith [mul_nonneg ho0 hsQ0]
    have hqout0 : (0 : ℚ) ≤ ((base.alpha : ℚ) / 255) * (opacity * (1 - (src.alpha : ℚ) / 255)) :=
      mul_nonneg haQ0 hout0
    have hqout1 : ((base.alpha : ℚ) / 255) * (opacity * (1 - (src.alpha : ℚ) / 255)) ≤ 1 := by
      nlinarith [mul_nonneg (sub_nonneg.mpr haQ1) hout0]
    refine ⟨?_, ?_, ?_, ?_, ?_, ?_, ?_, ?_⟩
    · rw [ein]; exact satU8_roundAway_byte hr
    · rw [ein]; exact satU8_roundAway_byte hg
    · rw [ein]; exact satU8_roundAway_byte hb
    · rw [ein]
      show (satU8 (roundAway ((((base.alpha : ℚ) / 255) *
        (((src.alpha : ℚ) / 255) * opacity)) * 255)) : ℤ) = _
      rw [satU8_roundAway_unit hqin0 hqin1]
      congr 1
      ring
    · rw [eout]; exact satU8_roundAway_byte hr
    · rw [eout]; exact satU8_roundAway_byte hg
    · rw [eout]; exact satU8_roundAway_byte hb
    · rw [eout]
      show (satU8 (roundAway ((((base.alpha : ℚ) / 255) *
        (opacity * (1 - (src.alpha : ℚ) / 255))) * 255)) : ℤ) = _
      rw [satU8_roundAway_unit hqout0 hqout1]
      congr 1
      ring

/-- Witness for C5 at a concrete input: base 0x102030 with alpha 200, blend
alpha 100, opacity 1/2. -/
theorem blend_colors_porter_duff_witness :
    (blend_colors ⟨16, 32, 48, 200⟩ ⟨1, 2, 3, 100⟩ .DestinationIn (1/2)).red = 16 ∧
    ((blend_colors ⟨16, 32, 48, 200⟩ ⟨1, 2, 3, 100⟩ .DestinationIn (1/2)).alpha : ℤ) =
      roundAway (255 * ((200 : ℚ) / 255) * ((100 : ℚ) / 255) * (1/2)) := by
  have h := blend_colors_porter_duff ⟨16, 32, 48, 200⟩ ⟨1, 2, 3, 100⟩ (1/2)
    (by norm_num) (by norm_num) (by norm_num) (by norm_num) (by norm_num)
    (by norm_num) (by norm_num)
  exact ⟨h.1, by exact_mod_cast h.2.2.2.1⟩

-- MARK: Image (src/image.rs)

/-- `Image`: raw RGBA8 data, a pixel size, and a row stride in bytes. -/
structure Image where
  data : List Nat
  size : Size
  bytes_per_row : Nat
deriving DecidableEq, Repr

/-- `Image::empty`: an all-zero image with stride `width * 4`. -/
def Image.empty (size : Size) : Image :=
  let bytes_per_row := size.width * 4
  let data_size := bytes_per_row * size.height
  ⟨List.replicate data_size 0, size, bytes_per_row⟩

-- MARK: Layer and Operation (src/composite/{layer,operation}.rs)

/-- `Layer`: an image, a float canvas position, a float size on canvas
(informational), a blend mode, and an opacity.  The source's
owned-vs-borrowed image distinction has no semantic content here. -/
structure Layer where
  image : Image
  position : PointQ
  size_on_canvas : SizeQ
  blend_mode : BlendMode
  opacity : ℚ

/-- `Operation`: an ordered layer stack, an output canvas size, and the
premultiply flag. -/
structure Operation where
  layers : List Layer
  size : Size
  should_premultiply : Bool

-- MARK: Compositor loops (src/composite/compositor.rs)

/-- Read a byte of a pixel buffer (out-of-range reads yield 0; the source
would panic there, and no claim exercises that case). -/
def byteAt (data : List Nat) (i : Nat) : Nat :=
  data.getD i 0

/-- One iteration of the inner x loop of `draw_layer_over_image`, at pixel
step `i` (byte offset `x = 4 * i`): read the layer and target pixels, blend
them, and write the four result bytes back into the target buffer. -/
def drawPixel (layerData : List Nat) (blend_mode : BlendMode) (opacity : ℚ)
    (offset xOffset targetOffset i : Nat) (data : List Nat) : List Nat :=
  let s := offset + 4 * i + xOffset
  let blend_color : Color :=
    ⟨byteAt layerData s, byteAt layerData (s + 1), byteAt layerData (s + 2),
      byteAt layerData (s + 3)⟩
  let t := targetOffset + 4 * i
  let base_color : Color :=
    ⟨byteAt data t, byteAt data (t + 1), byteAt data (t + 2), byteAt data (t + 3)⟩
  let c := blend_colors base_color blend_color blend_mode opacity
  ((((data.set t c.red).set (t + 1) c.green).set (t + 2) c.blue).set (t + 3) c.alpha)

/-- The inner x loop: process `n` remaining pixel steps starting at step
`i`. -/
def drawRow (layerData : List Nat) (blend_mode : BlendMode) (opacity : ℚ)
    (offset xOffset targetOffset : Nat) : Nat → Nat → List Nat → List Nat
  | 0, _, data => data
  | n + 1, i, data =>
    drawRow layerData blend_mode opacity offset xOffset targetOffset n (i + 1)
      (drawPixel layerData blend_mode opacity offset xOffset targetOffset i data)

/-- The outer y loop: process `n` remaining rows starting at row `y`,
computing each row's source and target byte offsets as the source does. -/
def drawRows (layer : Layer) (imageBpr requiredWidth startX xOffset yOffset
    targetYOffset : Nat) : Nat → Nat → List Nat → List Nat
  | 0, _, data => data
  | n + 1, y, data =>
    let offset := (y + yOffset) * layer.image.bytes_per_row
    let targetOffset := (targetYOffset + y) * imageBpr + startX * 4
    drawRows layer imageBpr requiredWidth startX xOffset yOffset targetYOffset n (y + 1)
      (drawRow layer.image.data layer.blend_mode layer.opacity offset xOffset targetOffset
        requiredWidth 0 data)

/-- `draw_layer_over_image`: clip the layer against the target on all four
sides (returning the target unchanged when the overlap is empty), then blend
pixel by pixel over the overlap. -/
def draw_layer_over_image (image : Image) (layer : Layer) : Image :=
  let location := layer.position.rounded
  let start_x : Nat := if location.x < 0 then 0 else location.x.toNat
  if start_x ≥ image.size.width then image
  else
    let end_x : ℤ := (layer.image.size.width : ℤ) + location.x
    if end_x ≤ 0 then image
    else
      let end_x : Nat := min image.size.width end_x.toNat
      let required_width := end_x - start_x
      let start_y : Nat := if location.y < 0 then 0 else location.y.toNat
      if start_y ≥ image.size.height then image
      else
        let end_y : ℤ := (layer.image.size.height : ℤ) + location.y
        if end_y ≤ 0 then image
        else
          let end_y : Nat := min image.size.height end_y.toNat
          let required_height := end_y - start_y
          let target_y_offset : Nat := if location.y < 0 then 0 else location.y.toNat
          let x_offset : Nat := if location.x < 0 then location.x.natAbs * 4 else 0
          let y_offset : Nat := if location.y < 0 then location.y.natAbs else 0
          { image with
            data := drawRows layer image.bytes_per_row required_width start_x x_offset
              y_offset target_y_offset required_height 0 image.data }

/-- `composite`: fold the layer stack bottom-to-top over a fresh transparent
output buffer. -/
def composite (operation : Operation) : Image :=
  operation.layers.foldl (fun output layer => draw_layer_over_image output layer)
    (Image.empty operation.size)

-- MARK: C9 — compositing an empty operation

/-- C9.  `composite` on an operation with no layers returns the freshly
allocated output: size equal to the operation's size, stride `width * 4`,
and all data bytes zero. -/
theorem composite_no_layers (op : Operation) (h : op.layers = []) :
    (composite op).size = op.size ∧
    (composite op).bytes_per_row = op.size.width * 4 ∧
    (composite op).data = List.replicate (op.size.width * 4 * op.size.height) 0 := by
  unfold composite
  rw [h]
  exact ⟨rfl, rfl, rfl⟩

/-- Witness for C9 on a concrete 2×3 operation. -/
theorem composite_no_layers_witness :
    (composite ⟨[], ⟨2, 3⟩, false⟩).size = ⟨2, 3⟩ ∧
    (composite ⟨[], ⟨2, 3⟩, false⟩).data = List.replicate 24 0 := by
  have h := composite_no_layers ⟨[], ⟨2, 3⟩, false⟩ rfl
  exact ⟨h.1, h.2.2⟩

-- MARK: C6 — off-canvas layers leave the target untouched

/-- C6.  If the layer's rounded position places it entirely outside the
target on any one of the four sides (right: `x ≥ width`; left:
`x + layerWidth ≤ 0`; bottom: `y ≥ height`; top: `y + layerHeight ≤ 0`,
negative positions included), `draw_layer_over_image` returns the target
image unchanged. -/
theorem draw_layer_over_image_off_canvas (image : Image) (layer : Layer)
    (h : layer.position.rounded.x ≥ (image.size.width : ℤ) ∨
      (layer.image.size.width : ℤ) + layer.position.rounded.x ≤ 0 ∨
      layer.position.rounded.y ≥ (image.size.height : ℤ) ∨
      (layer.image.size.height : ℤ) + layer.position.rounded.y ≤ 0) :
    draw_layer_over_image image layer = image := by
  unfold draw_layer_over_image
  dsimp only
  split_ifs <;> first | rfl | (exfalso; omega)

/-- Witness for C6: a 1×1 layer at rounded position (5, 0) against a 3×3
target. -/
theorem draw_layer_over_image_off_canvas_witness :
    draw_layer_over_image ⟨List.replicate 36 7, ⟨3, 3⟩, 12⟩
      ⟨⟨[9, 9, 9, 9], ⟨1, 1⟩, 4⟩, ⟨5, 0⟩, ⟨1, 1⟩, .Normal, 1⟩ =
      ⟨List.replicate 36 7, ⟨3, 3⟩, 12⟩ := by
  apply draw_layer_over_image_off_canvas
  left
  show roundAway (5 : ℚ) ≥ (3 : ℤ)
  rw [show ((5 : ℚ)) = ((5 : Nat) : ℚ) by norm_num, roundAway_natCast]
  norm_num

-- MARK: Normal-mode pixel lemmas (shared by the compositing claims)

/-- Reduction of `blend_colors` for `Normal` outside the fully-transparent
fast path, with the alpha-compositing stage written out field by field. -/
theorem blend_colors_normal_eq (base top : Color) (o : ℚ)
    (h : ¬(base.alpha = 0 ∧ top.alpha = 0)) :
    blend_colors base top .Normal o =
      (RgbaColor.unpremultiply
        ⟨(((top.red : ℚ)/255) * (1 - (base.alpha : ℚ)/255) +
            ((top.red : ℚ)/255) * ((base.alpha : ℚ)/255)) * (o * ((top.alpha : ℚ)/255)) +
          ((base.red : ℚ)/255) * (((base.alpha : ℚ)/255) * (1 - o * ((top.alpha : ℚ)/255))),
         (((top.green : ℚ)/255) * (1 - (base.alpha : ℚ)/255) +
            ((top.green : ℚ)/255) * ((base.alpha : ℚ)/255)) * (o * ((top.alpha : ℚ)/255)) +
          ((base.green : ℚ)/255) * (((base.alpha : ℚ)/255) * (1 - o * ((top.alpha : ℚ)/255))),
         (((top.blue : ℚ)/255) * (1 - (base.alpha : ℚ)/255) +
            ((top.blue : ℚ)/255) * ((base.alpha : ℚ)/255)) * (o * ((top.alpha : ℚ)/255)) +
          ((base.blue : ℚ)/255) * (((base.alpha : ℚ)/255) * (1 - o * ((top.alpha : ℚ)/255))),
         (1 * (1 - (base.alpha : ℚ)/255) + 1 * ((base.alpha : ℚ)/255)) *
            (o * ((top.alpha : ℚ)/255)) +
          1 * (((base.alpha : ℚ)/255) * (1 - o * ((top.alpha : ℚ)/255)))⟩).to_color := by
  unfold blend_colors
  rw [if_neg h]
  rfl

/-- `unpremultiply` is the identity on a colour of alpha 1, so `to_color`
sees it unchanged. -/
theorem unpremultiply_to_color_alpha_one (c : RgbaColor) (hc : c.alpha = 1) :
    c.unpremultiply.to_color = c.to_color := by
  unfold RgbaColor.unpremultiply
  rw [if_neg (by rw [hc]; norm_num)]

/-- `to_color` of a colour holding bytes over 255 with alpha 1. -/
theorem to_color_of_bytes (c : RgbaColor) (r g b : Nat)
    (hr : r ≤ 255) (hg : g ≤ 255) (hb : b ≤ 255)
    (hcr : c.red = (r : ℚ)/255) (hcg : c.green = (g : ℚ)/255) (hcb : c.blue = (b : ℚ)/255)
    (hca : c.alpha = 1) :
    c.to_color = ⟨r, g, b, 255⟩ := by
  unfold RgbaColor.to_color
  rw [hcr, hcg, hcb, hca]
  simp only [Color.mk.injEq]
  refine ⟨satU8_roundAway_byte hr, satU8_roundAway_byte hg, satU8_roundAway_byte hb, ?_⟩
  rw [show (1 : ℚ) * 255 = ((255 : Nat) : ℚ) by norm_num, roundAway_natCast]
  rfl

/-- `unpremultiply` then `to_color` of a colour whose channels hold
`byte/255` premultiplied by an alpha strictly between 0 and 1. -/
theorem unpremultiply_to_color_scaled (c : RgbaColor) (r g b : Nat) (o : ℚ)
    (hr : r ≤ 255) (hg : g ≤ 255) (hb : b ≤ 255)
    (hcr : c.red = (r : ℚ)/255 * o) (hcg : c.green = (g : ℚ)/255 * o)
    (hcb : c.blue = (b : ℚ)/255 * o) (hca : c.alpha = o)
    (ho0 : 0 < o) (ho1 : o < 1) :
    c.unpremultiply.to_color = ⟨r, g, b, satU8 (roundAway (o * 255))⟩ := by
  have hne : o ≠ 0 := ne_of_gt ho0
  unfold RgbaColor.unpremultiply
  rw [if_pos (by rw [hca]; exact ⟨ho1, ho0⟩)]
  unfold RgbaColor.to_color
  simp only [hcr, hcg, hcb, hca]
  rw [mul_div_cancel_right₀ _ hne, mul_div_cancel_right₀ _ hne, mul_div_cancel_right₀ _ hne]
  simp only [Color.mk.injEq]
  exact ⟨satU8_roundAway_byte hr, satU8_roundAway_byte hg, satU8_roundAway_byte hb, trivial⟩

/-- Normal blending of a fully opaque top pixel at opacity 1 replaces the
base pixel outright. -/
theorem blend_colors_normal_opaque_top (base top : Color)
    (htr : top.red ≤ 255) (htg : top.green ≤ 255) (htb : top.blue ≤ 255)
    (hta : top.alpha = 255) :
    blend_colors base top .Normal 1 = ⟨top.red, top.green, top.blue, 255⟩ := by
  have h : ¬(base.alpha = 0 ∧ top.alpha = 0) := by
    rw [hta]
    rintro ⟨-, h2⟩
    exact absurd h2 (by norm_num)
  rw [blend_colors_normal_eq base top 1 h]
  refine (unpremultiply_to_color_alpha_one _ ?_).trans
    (to_color_of_bytes _ top.red top.green top.blue htr htg htb ?_ ?_ ?_ ?_)
  all_goals
    show _ = _
    rw [hta]
    push_cast
    ring

/-- Normal blending of a fully opaque top pixel at an opacity strictly
between 0 and 1 over a fully transparent base keeps the top RGB bytes and
scales only the alpha. -/
theorem blend_colors_normal_over_transparent (top : Color) (o : ℚ) (br bg bb : Nat)
    (htr : top.red ≤ 255) (htg : top.green ≤ 255) (htb : top.blue ≤ 255)
    (hta : top.alpha = 255) (ho0 : 0 < o) (ho1 : o < 1) :
    blend_colors ⟨br, bg, bb, 0⟩ top .Normal o =
      ⟨top.red, top.green, top.blue, satU8 (roundAway (o * 255))⟩ := by
  have h : ¬((⟨br, bg, bb, 0⟩ : Color).alpha = 0 ∧ top.alpha = 0) := by
    rw [hta]
    rintro ⟨-, h2⟩
    exact absurd h2 (by norm_num)
  rw [blend_colors_normal_eq _ top o h]
  refine unpremultiply_to_color_scaled _ top.red top.green top.blue o htr htg htb
    ?_ ?_ ?_ ?_ ho0 ho1
  all_goals
    show _ = _
    rw [hta]
    push_cast
    ring

-- MARK: C7 — opacity 1/2 over a transparent 1×1 canvas

/-- C7.  Compositing a single 1×1 layer of solid opaque 0x5FCDE4 with
Normal blending at opacity 1/2 onto a fully transparent 1×1 canvas yields
the pixel 0x5FCDE4 with alpha byte 0x80 (255·0.5 rounded): the RGB bytes
are unchanged by the premultiply/unpremultiply round trip. -/
theorem composite_half_opacity_solid :
    composite ⟨[⟨⟨[0x5F, 0xCD, 0xE4, 0xFF], ⟨1, 1⟩, 4⟩, ⟨0, 0⟩, ⟨1, 1⟩, .Normal, 1/2⟩],
        ⟨1, 1⟩, false⟩ =
      ⟨[0x5F, 0xCD, 0xE4, 0x80], ⟨1, 1⟩, 4⟩ := by
  have halpha : roundAway ((1 : ℚ)/2 * 255) = 128 := by
    unfold roundAway
    rw [if_pos (by norm_num)]
    rw [show (1 : ℚ)/2 * 255 + 1/2 = ((128 : ℤ) : ℚ) by norm_num, Int.floor_intCast]
  have hb : blend_colors ⟨0, 0, 0, 0⟩ ⟨0x5F, 0xCD, 0xE4, 0xFF⟩ .Normal (1/2) =
      ⟨0x5F, 0xCD, 0xE4, 0x80⟩ := by
    rw [blend_colors_normal_over_transparent ⟨0x5F, 0xCD, 0xE4, 0xFF⟩ (1/2) 0 0 0
      (by norm_num) (by norm_num) (by norm_num) rfl (by norm_num) (by norm_num)]
    rw [halpha]
    rfl
  unfold composite
  simp only [List.foldl]
  unfold draw_layer_over_image
  simp only [PointQ.rounded, roundAway_zero, Image.empty]
  norm_num
  simp only [drawRows, drawRow, drawPixel, byteAt]
  norm_num [List.getD]
  rw [hb]
  rfl

-- MARK: C2 — single opaque layer at the origin reproduces the source

/-- Select a channel of a colour by index (0 red, 1 green, 2 blue, 3 alpha). -/
def Color.channel (c : Color) : Nat → Nat
  | 0 => c.red
  | 1 => c.green
  | 2 => c.blue
  | _ => c.alpha

/-- The four bytes starting at `base` read as a colour. -/
def pixelAt (l : List Nat) (base : Nat) : Color :=
  ⟨byteAt l base, byteAt l (base + 1), byteAt l (base + 2), byteAt l (base + 3)⟩

theorem getD_set_ne (l : List Nat) (i j v : Nat) (h : i ≠ j) :
    (l.set i v).getD j 0 = l.getD j 0 := by
  simp [List.getD_eq_getElem?_getD, List.getElem?_set_ne h]

theorem getD_set_self (l : List Nat) (i v : Nat) (h : i < l.length) :
    (l.set i v).getD i 0 = v := by
  simp [List.getD_eq_getElem?_getD, List.getElem?_set_self, h]

theorem byteAt_replicate_zero (n p : Nat) : byteAt (List.replicate n 0) p = 0 := by
  unfold byteAt
  rcases lt_or_le p n with hp | hp
  · simp [List.getD_eq_getElem?_getD, List.getElem?_replicate, hp]
  · have hlen : (List.replicate n 0).length ≤ p := by simpa using hp
    simp [List.getD_eq_getElem?_getD, List.getElem?_eq_none hlen]

theorem byteAt_le_of_all {l : List Nat} (h : ∀ b ∈ l, b ≤ 255) (p : Nat) :
    byteAt l p ≤ 255 := by
  unfold byteAt
  rcases lt_or_le p l.length with hp | hp
  · rw [List.getD_eq_getElem l 0 hp]
    exact h _ (List.getElem_mem hp)
  · rw [List.getD_eq_default l 0 hp]
    norm_num

theorem length_drawPixel (layerData : List Nat) (bm : BlendMode) (op : ℚ)
    (offset xOffset targetOffset i : Nat) (data : List Nat) :
    (drawPixel layerData bm op offset xOffset targetOffset i data).length = data.length := by
  unfold drawPixel
  simp [List.length_set]

theorem byteAt_drawPixel_outside (layerData : List Nat) (bm : BlendMode) (op : ℚ)
    (offset xOffset targetOffset i : Nat) (data : List Nat) (p : Nat)
    (h : p < targetOffset + 4 * i ∨ targetOffset + 4 * i + 4 ≤ p) :
    byteAt (drawPixel layerData bm op offset xOffset targetOffset i data) p = byteAt data p := by
  unfold drawPixel byteAt
  dsimp only
  rw [getD_set_ne _ _ _ _ (by omega), getD_set_ne _ _ _ _ (by omega),
    getD_set_ne _ _ _ _ (by omega), getD_set_ne _ _ _ _ (by omega)]

theorem byteAt_drawPixel_self (layerData : List Nat) (bm : BlendMode) (op : ℚ)
    (offset xOffset targetOffset i k : Nat) (data : List Nat) (hk : k < 4)
    (hlen : targetOffset + 4 * i + 4 ≤ data.length) :
    byteAt (drawPixel layerData bm op offset xOffset targetOffset i data)
      (targetOffset + 4 * i + k) =
      Color.channel
        (blend_colors (pixelAt data (targetOffset + 4 * i))
          (pixelAt layerData (offset + 4 * i + xOffset)) bm op) k := by
  unfold drawPixel byteAt pixelAt Color.channel
  interval_cases k
  · simp only [Nat.add_zero]
    rw [getD_set_ne _ _ _ _ (by omega)]
    rw [getD_set_ne _ _ _ _ (by omega)]
    rw [getD_set_ne _ _ _ _ (by omega)]
    rw [getD_set_self _ _ _ (by omega)]
    rfl
  · rw [getD_set_ne _ _ _ _ (by omega)]
    rw [getD_set_ne _ _ _ _ (by omega)]
    rw [getD_set_self _ _ _ (by rw [List.length_set]; omega)]
    rfl
  · rw [getD_set_ne _ _ _ _ (by omega)]
    rw [getD_set_self _ _ _ (by rw [List.length_set, List.length_set]; omega)]
    rfl
  · rw [getD_set_self _ _ _
      (by rw [List.length_set, List.length_set, List.length_set]; omega)]
    rfl

theorem length_drawRow (layerData : List Nat) (bm : BlendMode) (op : ℚ)
    (offset xOffset targetOffset : Nat) :
    ∀ (n i : Nat) (data : List Nat),
      (drawRow layerData bm op offset xOffset targetOffset n i data).length = data.length := by
  intro n
  induction n with
  | zero => intro i data; rfl
  | succ n ih =>
    intro i data
    rw [drawRow, ih, length_drawPixel]

theorem byteAt_drawRow_lt (layerData : List Nat) (bm : BlendMode) (op : ℚ)
    (offset xOffset targetOffset : Nat) :
    ∀ (n i : Nat) (data : List Nat) (p : Nat), p < targetOffset + 4 * i →
      byteAt (drawRow layerData bm op offset xOffset targetOffset n i data) p =
        byteAt data p := by
  intro n
  induction n with
  | zero => intro i data p _; rfl
  | succ n ih =>
    intro i data p hp
    rw [drawRow, ih _ _ _ (by omega), byteAt_drawPixel_outside _ _ _ _ _ _ _ _ _ (by omega)]

theorem byteAt_drawRow_ge (layerData : List Nat) (bm : BlendMode) (op : ℚ)
    (offset xOffset targetOffset : Nat) :
    ∀ (n i : Nat) (data : List Nat) (p : Nat), targetOffset + 4 * (i + n) ≤ p →
      byteAt (drawRow layerData bm op offset xOffset targetOffset n i data) p =
        byteAt data p := by
  intro n
  induction n with
  | zero => intro i data p _; rfl
  | succ n ih =>
    intro i data p hp
    rw [drawRow, ih _ _ _ (by omega), byteAt_drawPixel_outside _ _ _ _ _ _ _ _ _ (by omega)]

theorem byteAt_drawRow_value (layerData : List Nat) (bm : BlendMode) (op : ℚ)
    (offset xOffset targetOffset : Nat) :
    ∀ (n i j k : Nat) (data : List Nat), i ≤ j → j < i + n → k < 4 →
      targetOffset + 4 * (i + n) ≤ data.length →
      byteAt (drawRow layerData bm op offset xOffset targetOffset n i data)
        (targetOffset + 4 * j + k) =
        Color.channel
          (blend_colors (pixelAt data (targetOffset + 4 * j))
            (pixelAt layerData (offset + 4 * j + xOffset)) bm op) k := by
  intro n
  induction n with
  | zero => intro i j k data hij hjn _ _; omega
  | succ n ih =>
    intro i j k data hij hjn hk hlen
    rw [drawRow]
    rcases eq_or_lt_of_le hij with rfl | hlt
    · rw [byteAt_drawRow_lt _ _ _ _ _ _ _ _ _ _ (by omega)]
      exact byteAt_drawPixel_self _ _ _ _ _ _ _ _ _ hk (by omega)
    · rw [ih _ _ _ _ (by omega) (by omega) hk
        (by rw [length_drawPixel]; omega)]
      have hpix : pixelAt (drawPixel layerData bm op offset xOffset targetOffset i data)
          (targetOffset + 4 * j) = pixelAt data (targetOffset + 4 * j) := by
        unfold pixelAt
        rw [byteAt_drawPixel_outside _ _ _ _ _ _ _ _ _ (by omega),
          byteAt_drawPixel_outside _ _ _ _ _ _ _ _ _ (by omega),
          byteAt_drawPixel_outside _ _ _ _ _ _ _ _ _ (by omega),
          byteAt_drawPixel_outside _ _ _ _ _ _ _ _ _ (by omega)]
      rw [hpix]

theorem length_drawRows (layer : Layer) (imageBpr requiredWidth startX xOffset yOffset
    targetYOffset : Nat) :
    ∀ (n y : Nat) (data : List Nat),
      (drawRows layer imageBpr requiredWidth startX xOffset yOffset targetYOffset n y
        data).length = data.length := by
  intro n
  induction n with
  | zero => intro y data; rfl
  | succ n ih =>
    intro y data
    rw [drawRows, ih, length_drawRow]

theorem byteAt_drawRows_lt (layer : Layer) (imageBpr requiredWidth startX xOffset yOffset
    targetYOffset : Nat) :
    ∀ (n y : Nat) (data : List Nat) (p : Nat),
      p < (targetYOffset + y) * imageBpr + startX * 4 →
      byteAt (drawRows layer imageBpr requiredWidth startX xOffset yOffset targetYOffset
        n y data) p = byteAt data p := by
  intro n
  induction n with
  | zero => intro y data p _; rfl
  | succ n ih =>
    intro y data p hp
    rw [drawRows]
    have hbpr : (targetYOffset + y) * imageBpr ≤ (targetYOffset + (y + 1)) * imageBpr :=
      Nat.mul_le_mul_right _ (by omega)
    rw [ih _ _ _ (by omega), byteAt_drawRow_lt _ _ _ _ _ _ _ _ _ _ (by omega)]

theorem byteAt_drawRows_value (layer : Layer) (imageBpr requiredWidth startX xOffset yOffset
    targetYOffset : Nat) (hW : startX * 4 + 4 * requiredWidth ≤ imageBpr) :
    ∀ (n y0 y x k : Nat) (data : List Nat), y0 ≤ y → y < y0 + n → x < requiredWidth →
      k < 4 → (targetYOffset + (y0 + n)) * imageBpr ≤ data.length →
      byteAt (drawRows layer imageBpr requiredWidth startX xOffset yOffset targetYOffset
          n y0 data)
        ((targetYOffset + y) * imageBpr + startX * 4 + 4 * x + k) =
        Color.channel
          (blend_colors
            (pixelAt data ((targetYOffset + y) * imageBpr + startX * 4 + 4 * x))
            (pixelAt layer.image.data
              ((y + yOffset) * layer.image.bytes_per_row + 4 * x + xOffset))
            layer.blend_mode layer.opacity) k := by
  intro n
  induction n with
  | zero => intro y0 y x k data h0 hn _ _ _; omega
  | succ n ih =>
    intro y0 y x k data h0 hn hx hk hlen
    rw [drawRows]
    have hmono : ∀ a b : Nat, a ≤ b →
        (targetYOffset + a) * imageBpr ≤ (targetYOffset + b) * imageBpr :=
      fun a b hab => Nat.mul_le_mul_right _ (by omega)
    have hstep : (targetYOffset + (y0 + 1)) * imageBpr
        = (targetYOffset + y0) * imageBpr + imageBpr := by ring
    have hup : (targetYOffset + (y0 + 1)) * imageBpr
        ≤ (targetYOffset + (y0 + (n + 1))) * imageBpr := hmono _ _ (by omega)
    rcases eq_or_lt_of_le h0 with rfl | hlt
    · rw [byteAt_drawRows_lt _ _ _ _ _ _ _ _ _ _ _ (by omega)]
      have := byteAt_drawRow_value layer.image.data layer.blend_mode layer.opacity
        ((y0 + yOffset) * layer.image.bytes_per_row)
        xOffset ((targetYOffset + y0) * imageBpr + startX * 4)
        requiredWidth 0 x k data (by omega) (by omega) hk (by omega)
      rw [this]
    · have hadj : (targetYOffset + (y0 + 1 + n)) * imageBpr
          ≤ (targetYOffset + (y0 + (n + 1))) * imageBpr := hmono _ _ (by omega)
      rw [ih _ _ _ _ _ (by omega) (by omega) hx hk
        (by rw [length_drawRow]; omega)]
      have hge : ∀ q : Nat, (targetYOffset + y) * imageBpr + startX * 4 + 4 * x + q ≥
          (targetYOffset + y0) * imageBpr + startX * 4 + 4 * (0 + requiredWidth) := by
        intro q
        have := hmono (y0 + 1) y (by omega)
        omega
      have hpix : pixelAt (drawRow layer.image.data layer.blend_mode layer.opacity
          ((y0 + yOffset) * layer.image.bytes_per_row) xOffset
          ((targetYOffset + y0) * imageBpr + startX * 4) requiredWidth 0 data)
          ((targetYOffset + y) * imageBpr + startX * 4 + 4 * x) =
          pixelAt data ((targetYOffset + y) * imageBpr + startX * 4 + 4 * x) := by
        simp only [pixelAt, Color.mk.injEq]
        refine ⟨?_, ?_, ?_, ?_⟩
        · exact byteAt_drawRow_ge _ _ _ _ _ _ _ _ _ _ (by have := hge 0; omega)
        · exact byteAt_drawRow_ge _ _ _ _ _ _ _ _ _ _ (by have := hge 1; omega)
        · exact byteAt_drawRow_ge _ _ _ _ _ _ _ _ _ _ (by have := hge 2; omega)
        · exact byteAt_drawRow_ge _ _ _ _ _ _ _ _ _ _ (by have := hge 3; omega)
      rw [hpix]

/-- `draw_layer_over_image` never changes the size or stride of the target. -/
theorem draw_layer_over_image_size (image : Image) (layer : Layer) :
    (draw_layer_over_image image layer).size = image.size ∧
    (draw_layer_over_image image layer).bytes_per_row = image.bytes_per_row := by
  unfold draw_layer_over_image
  dsimp only
  split_ifs <;> exact ⟨rfl, rfl⟩

/-- Rounding the origin gives the origin. -/
theorem rounded_zero : (⟨0, 0⟩ : PointQ).rounded = ⟨0, 0⟩ := by
  unfold PointQ.rounded
  rw [roundAway_zero]

/-- Reduction of `draw_layer_over_image` for a layer at position (0, 0)
whose image size matches the target, with both dimensions positive. -/
theorem draw_layer_at_origin (image : Image) (layer : Layer)
    (hpos : layer.position = ⟨0, 0⟩) (hsz : layer.image.size = image.size)
    (hw : 0 < image.size.width) (hh : 0 < image.size.height) :
    draw_layer_over_image image layer =
      { image with
        data := drawRows layer image.bytes_per_row image.size.width 0 0 0 0
          image.size.height 0 image.data } := by
  have hw2 : layer.image.size.width = image.size.width := by rw [hsz]
  have hh2 : layer.image.size.height = image.size.height := by rw [hsz]
  unfold draw_layer_over_image
  rw [hpos, rounded_zero]
  dsimp only
  norm_num
  rw [if_neg (by omega), if_neg (by omega), if_neg (by omega), if_neg (by omega), hw2, hh2,
    min_self, min_self]

/-- C2.  Compositing the single layer {image S, position (0,0), Normal,
opacity 1} over a canvas of S's size, where every pixel of S is fully
opaque, reproduces S exactly: the output has S's size, stride `width * 4`,
and every channel byte of every pixel equals the corresponding byte of S. -/
theorem composite_single_opaque_layer (S : Image)
    (hbpr : 4 * S.size.width ≤ S.bytes_per_row)
    (hlen : S.bytes_per_row * S.size.height ≤ S.data.length)
    (hbytes : ∀ b ∈ S.data, b ≤ 255)
    (halpha : ∀ x y : Nat, x < S.size.width → y < S.size.height →
      byteAt S.data (y * S.bytes_per_row + 4 * x + 3) = 255) :
    (composite ⟨[⟨S, ⟨0, 0⟩, ⟨(S.size.width : ℚ), (S.size.height : ℚ)⟩, .Normal, 1⟩],
        S.size, false⟩).size = S.size ∧
    (composite ⟨[⟨S, ⟨0, 0⟩, ⟨(S.size.width : ℚ), (S.size.height : ℚ)⟩, .Normal, 1⟩],
        S.size, false⟩).bytes_per_row = S.size.width * 4 ∧
    ∀ x y k : Nat, x < S.size.width → y < S.size.height → k < 4 →
      byteAt (composite ⟨[⟨S, ⟨0, 0⟩, ⟨(S.size.width : ℚ), (S.size.height : ℚ)⟩,
          .Normal, 1⟩], S.size, false⟩).data
        (y * (S.size.width * 4) + 4 * x + k) =
      byteAt S.data (y * S.bytes_per_row + 4 * x + k) := by
  set L : Layer := ⟨S, ⟨0, 0⟩, ⟨(S.size.width : ℚ), (S.size.height : ℚ)⟩, .Normal, 1⟩ with hL
  have hcomp : composite ⟨[L], S.size, false⟩ = draw_layer_over_image (Image.empty S.size) L :=
    rfl
  refine ⟨?_, ?_, ?_⟩
  · rw [hcomp, (draw_layer_over_image_size _ _).1]; rfl
  · rw [hcomp, (draw_layer_over_image_size _ _).2]; rfl
  · intro x y k hx hy hk
    rw [hcomp, draw_layer_at_origin (Image.empty S.size) L rfl rfl
      (by show 0 < S.size.width; omega) (by show 0 < S.size.height; omega)]
    dsimp only
    rw [show (Image.empty S.size).bytes_per_row = S.size.width * 4 from rfl,
      show (Image.empty S.size).size = S.size from rfl,
      show (Image.empty S.size).data = List.replicate (S.size.width * 4 * S.size.height) 0
        from rfl]
    have hval := byteAt_drawRows_value L (S.size.width * 4)
      S.size.width 0 0 0 0 (by omega)
      S.size.height 0 y x k (List.replicate (S.size.width * 4 * S.size.height) 0)
      (by omega) (by omega) hx hk
      (by rw [List.length_replicate]; exact le_of_eq (by ring))
    rw [show (0 + y) * (S.size.width * 4) + 0 * 4 + 4 * x + k
        = y * (S.size.width * 4) + 4 * x + k from by ring] at hval
    rw [hval]
    have hzero : pixelAt (List.replicate (S.size.width * 4 * S.size.height) 0)
        ((0 + y) * (S.size.width * 4) + 0 * 4 + 4 * x) = ⟨0, 0, 0, 0⟩ := by
      unfold pixelAt
      rw [byteAt_replicate_zero, byteAt_replicate_zero, byteAt_replicate_zero,
        byteAt_replicate_zero]
    rw [hzero]
    have hpix : pixelAt L.image.data ((y + 0) * L.image.bytes_per_row + 4 * x + 0)
        = pixelAt S.data (y * S.bytes_per_row + 4 * x) := by
      show pixelAt S.data ((y + 0) * S.bytes_per_row + 4 * x + 0) = _
      congr 1
    have hblend : blend_colors ⟨0, 0, 0, 0⟩
        (pixelAt L.image.data ((y + 0) * L.image.bytes_per_row + 4 * x + 0))
        L.blend_mode L.opacity =
        ⟨byteAt S.data (y * S.bytes_per_row + 4 * x),
         byteAt S.data (y * S.bytes_per_row + 4 * x + 1),
         byteAt S.data (y * S.bytes_per_row + 4 * x + 2), 255⟩ := by
      show blend_colors ⟨0, 0, 0, 0⟩
        (pixelAt L.image.data ((y + 0) * L.image.bytes_per_row + 4 * x + 0)) .Normal 1 = _
      rw [hpix]
      have halpha2 : (pixelAt S.data (y * S.bytes_per_row + 4 * x)).alpha = 255 := by
        show byteAt S.data (y * S.bytes_per_row + 4 * x + 3) = 255
        exact halpha x y hx hy
      have := blend_colors_normal_opaque_top ⟨0, 0, 0, 0⟩
        (pixelAt S.data (y * S.bytes_per_row + 4 * x))
        (byteAt_le_of_all hbytes _) (byteAt_le_of_all hbytes _) (byteAt_le_of_all hbytes _)
        halpha2
      rw [this]
      rfl
    rw [hblend]
    interval_cases k
    · rfl
    · rfl
    · rfl
    · show (255 : Nat) = byteAt S.data (y * S.bytes_per_row + 4 * x + 3)
      rw [halpha x y hx hy]

/-- Witness for C2: a concrete 2×1 fully opaque image with stride 8
round-trips through the compositor. -/
theorem composite_single_opaque_layer_witness :
    byteAt (composite ⟨[⟨⟨[10, 20, 30, 255, 40, 50, 60, 255], ⟨2, 1⟩, 8⟩, ⟨0, 0⟩,
        ⟨(2 : ℚ), (1 : ℚ)⟩, .Normal, 1⟩], ⟨2, 1⟩, false⟩).data (0 * (2 * 4) + 4 * 1 + 2) =
      byteAt [10, 20, 30, 255, 40, 50, 60, 255] (0 * 8 + 4 * 1 + 2) := by
  have h := composite_single_opaque_layer ⟨[10, 20, 30, 255, 40, 50, 60, 255], ⟨2, 1⟩, 8⟩
    (by norm_num) (by norm_num) (by decide)
    (by intro x y hx hy; interval_cases x <;> interval_cases y <;> rfl)
  exact h.2.2 1 0 2 (by norm_num) (by norm_num) (by norm_num)

-- MARK: Flood fill (src/color_replace.rs)

/-- `unsigned_int_color`: the four RGBA bytes at a point packed into a
`u32`.  A negative coordinate wraps to a huge `usize` in the source and so
fails the length guard; any out-of-range offset likewise returns 0. -/
def unsigned_int_color (point : PointI) (vertex_buffer : List Nat) (bytes_per_row : Nat) :
    Nat :=
  if point.x < 0 ∨ point.y < 0 then 0
  else
    let offset := bytes_per_row * point.y.toNat + point.x.toNat * 4
    if vertex_buffer.length < offset + 4 then 0
    else
      byteAt vertex_buffer offset * 2 ^ 24 + byteAt vertex_buffer (offset + 1) * 2 ^ 16 +
        byteAt vertex_buffer (offset + 2) * 2 ^ 8 + byteAt vertex_buffer (offset + 3)

/-- Write the four bytes of a packed `u32` colour at a byte offset (the
masked shifts of the source, as arithmetic on `Nat`). -/
def writeColorBytes (buffer : List Nat) (byte_index : Nat) (c : Nat) : List Nat :=
  (((buffer.set byte_index (c / 2 ^ 24 % 256)).set (byte_index + 1) (c / 2 ^ 16 % 256)).set
      (byte_index + 2) (c / 2 ^ 8 % 256)).set (byte_index + 3) (c % 256)

/-- The mutable state of the scanline fill: the seed stack, the two pixel
buffers, and the affected-region accumulator. -/
structure FillState where
  points : List PointI
  buffer : List Nat
  secondary : List Nat
  affectedMinX : ℤ
  affectedMaxX : ℤ
  affectedMinY : ℤ
  affectedMaxY : ℤ
deriving Repr

/-- The upward walk (`while current_point.y >= min_y && color == target`):
step up one row at a time, re-reading the colour only while still inside
the bounding box.  Callers pass fuel `(p.y - minY + 1).toNat + 1`, which the
walk (strictly decreasing in y, bounded below by `minY - 1`) cannot
exhaust. -/
def walkUp (buffer : List Nat) (bytes_per_row : Nat) (minY : ℤ) (target : Nat) :
    Nat → PointI → Nat → PointI
  | 0, p, _ => p
  | fuel + 1, p, color =>
    if p.y ≥ minY ∧ color = target then
      let p2 : PointI := ⟨p.x, p.y - 1⟩
      let color2 := if p2.y ≥ minY then unsigned_int_color p2 buffer bytes_per_row else color
      walkUp buffer bytes_per_row minY target fuel p2 color2
    else p

/-- The downward scan (`while current_point.y < max_y && color == target &&
new_color != color`): overwrite the pixel (and the secondary buffer when
present), push west/east seeds under the span flags, fold the point into
the affected-region accumulator when a span flag is unset, then step down.
Callers pass fuel `(maxY - p.y).toNat`, which the scan (strictly increasing
in y, bounded above by `maxY`) cannot exhaust.  The colour variable left
behind by the west/east reads is dead once the loop exits, so the stale
value is not threaded. -/
def scanDown (bytes_per_row : Nat) (has_secondary : Bool) (minX maxX maxY : ℤ)
    (target new_color : Nat) :
    Nat → PointI → Nat → Bool → Bool → FillState → FillState
  | 0, _, _, _, _, st => st
  | fuel + 1, p, color, span_left, span_right, st =>
    if p.y < maxY ∧ color = target ∧ new_color ≠ color then
      let byte_index := bytes_per_row * p.y.toNat + p.x.toNat * 4
      let buffer := writeColorBytes st.buffer byte_index new_color
      let secondary :=
        if has_secondary then writeColorBytes st.secondary byte_index new_color
        else st.secondary
      let west : PointI := ⟨p.x - 1, p.y⟩
      let wcolor := unsigned_int_color west buffer bytes_per_row
      let points :=
        if p.x > minX ∧ ¬span_left ∧ wcolor = target then west :: st.points else st.points
      let span_left :=
        if p.x > minX then
          if ¬span_left ∧ wcolor = target then true
          else if span_left ∧ wcolor ≠ target then false
          else span_left
        else span_left
      let east : PointI := ⟨p.x + 1, p.y⟩
      let ecolor := unsigned_int_color east buffer bytes_per_row
      let points :=
        if p.x < maxX - 1 ∧ ¬span_right ∧ ecolor = target then east :: points else points
      let span_right :=
        if p.x < maxX - 1 then
          if ¬span_right ∧ ecolor = target then true
          else if span_right ∧ ecolor ≠ target then false
          else span_right
        else span_right
      let track := ¬span_right ∨ ¬span_left
      let st2 : FillState :=
        { points := points, buffer := buffer, secondary := secondary,
          affectedMinX := if track then min st.affectedMinX p.x else st.affectedMinX,
          affectedMaxX := if track then max st.affectedMaxX p.x else st.affectedMaxX,
          affectedMinY := if track then min st.affectedMinY p.y else st.affectedMinY,
          affectedMaxY := if track then max st.affectedMaxY p.y else st.affectedMaxY }
      let p2 : PointI := ⟨p.x, p.y + 1⟩
      let color2 := if p2.y < maxY then unsigned_int_color p2 buffer bytes_per_row else color
      scanDown bytes_per_row has_secondary minX maxX maxY target new_color fuel p2 color2
        span_left span_right st2
    else st

/-- The outer `while !points.is_empty()` loop, with explicit fuel: pop a
seed, walk up, step back down one row, reset the span flags, re-read the
colour, and run the downward scan.  `none` reports exhausted fuel. -/
def fillLoop (bytes_per_row : Nat) (has_secondary : Bool) (minX maxX minY maxY : ℤ)
    (target new_color : Nat) : Nat → FillState → Option FillState
  | 0, st => if st.points = [] then some st else none
  | fuel + 1, st =>
    match st.points with
    | [] => some st
    | p :: rest =>
      let st := { st with points := rest }
      let color := unsigned_int_color p st.buffer bytes_per_row
      let p := walkUp st.buffer bytes_per_row minY target ((p.y - minY + 1).toNat + 1) p color
      let p : PointI := ⟨p.x, p.y + 1⟩
      let color := unsigned_int_color p st.buffer bytes_per_row
      let st := scanDown bytes_per_row has_secondary minX maxX maxY target new_color
        ((maxY - p.y).toNat) p color false false st
      fillLoop bytes_per_row has_secondary minX maxX minY maxY target new_color fuel st

/-- The outcome of a flood fill: the returned `Result` (with `Option` for
fuel exhaustion inside `ok`), and the final contents of the primary and
secondary buffers (which the source mutates in place). -/
structure FloodOutcome where
  result : Except String (Option RectI)
  data : List Nat
  secondaryData : Option (List Nat)
deriving Repr

/-- `flood_fill_in_bounds`: clamp the bounding box, validate the start
point and the secondary image, then run the scanline fill.  All three
failure cases return an error value (never a panic) before any pixel is
touched. -/
def flood_fill_in_bounds (fuel : Nat) (image : Image) (start : PointI) (fill_color : Color)
    (secondary_image : Option Image) (bounding_box : Option RectI) : FloodOutcome :=
  let image_bounds : RectI := ⟨⟨0, 0⟩, ⟨(image.size.width : ℤ), (image.size.height : ℤ)⟩⟩
  let bounding_box0 := bounding_box.getD image_bounds
  match bounding_box0.intersection image_bounds with
  | none => ⟨.error "Bounding box is outside of the image.", image.data,
      secondary_image.map (fun s => s.data)⟩
  | some bb =>
    if ¬ bb.contains start then
      ⟨.error "Point outside of image bounds.", image.data,
        secondary_image.map (fun s => s.data)⟩
    else
      let checked : Except String (Bool × List Nat) :=
        match secondary_image with
        | some s =>
          if s.size ≠ image.size ∨ s.bytes_per_row ≠ image.bytes_per_row then
            .error "The secondary image properties do not match the primary ones."
          else .ok (true, s.data)
        | none => .ok (false, [])
      match checked with
      | .error e => ⟨.error e, image.data, secondary_image.map (fun s => s.data)⟩
      | .ok (has_secondary, secondary_buffer) =>
        let target_color := unsigned_int_color start image.data image.bytes_per_row
        let new_color := fill_color.as_rgba_u32
        let st0 : FillState := ⟨[start], image.data, secondary_buffer,
          start.x, start.x, start.y, start.y⟩
        match fillLoop image.bytes_per_row has_secondary bb.min_x bb.max_x bb.min_y bb.max_y
            target_color new_color fuel st0 with
        | none => ⟨.ok none, image.data, secondary_image.map (fun s => s.data)⟩
        | some st =>
          ⟨.ok (some (RectI.new st.affectedMinX st.affectedMinY
              (st.affectedMaxX - st.affectedMinX + 1) (st.affectedMaxY - st.affectedMinY + 1))),
            st.buffer, if has_secondary then some st.secondary else none⟩

/-- `flood_fill`: the bounding-box-free, secondary-free entry point. -/
def flood_fill (fuel : Nat) (image : Image) (start : PointI) (fill_color : Color) :
    FloodOutcome :=
  flood_fill_in_bounds fuel image start fill_color none none

-- MARK: C3 — a fill whose colour matches the target is a no-op

/-- When the fill colour already equals the target colour, the downward
scan's `new_color != color` guard fails immediately: the scan is the
identity on the state, for any fuel, point and flags. -/
theorem scanDown_self (bytes_per_row : Nat) (has_secondary : Bool) (minX maxX maxY : ℤ)
    (target : Nat) :
    ∀ (fuel : Nat) (p : PointI) (color : Nat) (sl sr : Bool) (st : FillState),
      scanDown bytes_per_row has_secondary minX maxX maxY target target fuel p color sl sr st
        = st := by
  intro fuel p color sl sr st
  cases fuel with
  | zero => rfl
  | succ n =>
    rw [scanDown]
    rw [if_neg]
    rintro ⟨-, h2, h3⟩
    exact h3 h2.symm

/-- A loop whose stack is empty returns its state at once. -/
theorem fillLoop_nil (bytes_per_row : Nat) (has_secondary : Bool) (minX maxX minY maxY : ℤ)
    (target new_color : Nat) (fuel : Nat) (st : FillState) (h : st.points = []) :
    fillLoop bytes_per_row has_secondary minX maxX minY maxY target new_color fuel st
      = some st := by
  cases fuel with
  | zero => rw [fillLoop, if_pos h]
  | succ n =>
    rw [fillLoop]
    split
    · rfl
    · rename_i p rest hp
      rw [h] at hp
      exact absurd hp (by simp)

/-- With `new_color = target` the single seed is popped, the scan does
nothing, and the loop ends with the buffers and accumulator untouched. -/
theorem fillLoop_noop (bytes_per_row : Nat) (has_secondary : Bool) (minX maxX minY maxY : ℤ)
    (target : Nat) (fuel : Nat) (hfuel : 1 ≤ fuel) (start : PointI)
    (buffer secondary : List Nat) :
    fillLoop bytes_per_row has_secondary minX maxX minY maxY target target fuel
      ⟨[start], buffer, secondary, start.x, start.x, start.y, start.y⟩ =
      some ⟨[], buffer, secondary, start.x, start.x, start.y, start.y⟩ := by
  cases fuel with
  | zero => omega
  | succ n =>
    rw [fillLoop]
    dsimp only
    rw [scanDown_self]
    exact fillLoop_nil _ _ _ _ _ _ _ _ _ _ rfl

/-- C3.  For every image, start point accepted by the validation (inside
the clamped bounding box), and fill colour whose packed value equals the
colour read at the start point, the flood fill returns Ok for every fuel
of at least 1 (the walk terminates after one seed), leaves the primary and
secondary buffers byte-for-byte unchanged, and returns the 1×1 affected
rectangle at the start point, which contains the start point. -/
theorem flood_fill_in_bounds_noop (fuel : Nat) (image : Image) (start : PointI)
    (fill_color : Color) (secondary_image : Option Image) (bounding_box : Option RectI)
    (bb : RectI)
    (hbb : (bounding_box.getD
        ⟨⟨0, 0⟩, ⟨(image.size.width : ℤ), (image.size.height : ℤ)⟩⟩).intersection
        ⟨⟨0, 0⟩, ⟨(image.size.width : ℤ), (image.size.height : ℤ)⟩⟩ = some bb)
    (hcontains : bb.contains start)
    (hsec : ∀ s ∈ secondary_image, s.size = image.size ∧ s.bytes_per_row = image.bytes_per_row)
    (hfill : fill_color.as_rgba_u32 = unsigned_int_color start image.data image.bytes_per_row)
    (hfuel : 1 ≤ fuel) :
    (flood_fill_in_bounds fuel image start fill_color secondary_image bounding_box).result =
      .ok (some (RectI.new start.x start.y 1 1)) ∧
    (flood_fill_in_bounds fuel image start fill_color secondary_image bounding_box).data =
      image.data ∧
    (flood_fill_in_bounds fuel image start fill_color secondary_image
        bounding_box).secondaryData = secondary_image.map (fun s => s.data) ∧
    (RectI.new start.x start.y 1 1).contains start := by
  have hrect : (RectI.new start.x start.y 1 1).contains start := by
    unfold RectI.new RectI.contains RectI.min_x RectI.max_x RectI.min_y RectI.max_y
    dsimp only
    omega
  unfold flood_fill_in_bounds
  dsimp only
  rw [hbb]
  dsimp only
  rw [if_neg (not_not_intro hcontains), hfill]
  cases secondary_image with
  | none =>
    dsimp only
    rw [fillLoop_noop _ _ _ _ _ _ _ _ (by omega) _ _ _]
    dsimp only
    simp only [sub_self, zero_add]
    exact ⟨by trivial, by trivial, by trivial, hrect⟩
  | some s =>
    obtain ⟨h1, h2⟩ := hsec s rfl
    dsimp only
    rw [if_neg (by simp [h1, h2])]
    dsimp only
    rw [fillLoop_noop _ _ _ _ _ _ _ _ (by omega) _ _ _]
    dsimp only
    simp only [sub_self, zero_add]
    exact ⟨by trivial, by trivial, by trivial, hrect⟩

/-- Witness for C3: a red 2×2 image refilled with the same red at (1, 0). -/
theorem flood_fill_in_bounds_noop_witness :
    (flood_fill_in_bounds 9 ⟨[200, 0, 0, 255, 200, 0, 0, 255, 200, 0, 0, 255, 200, 0, 0, 255],
        ⟨2, 2⟩, 8⟩ ⟨1, 0⟩ ⟨200, 0, 0, 255⟩ none none).data =
      [200, 0, 0, 255, 200, 0, 0, 255, 200, 0, 0, 255, 200, 0, 0, 255] ∧
    (flood_fill_in_bounds 9 ⟨[200, 0, 0, 255, 200, 0, 0, 255, 200, 0, 0, 255, 200, 0, 0, 255],
        ⟨2, 2⟩, 8⟩ ⟨1, 0⟩ ⟨200, 0, 0, 255⟩ none none).result =
      .ok (some (RectI.new 1 0 1 1)) := by
  have h := flood_fill_in_bounds_noop 9
    ⟨[200, 0, 0, 255, 200, 0, 0, 255, 200, 0, 0, 255, 200, 0, 0, 255], ⟨2, 2⟩, 8⟩
    ⟨1, 0⟩ ⟨200, 0, 0, 255⟩ none none (RectI.new 0 0 2 2)
    (by decide) (by decide) (by intro s hs; cases hs) (by decide) (by norm_num)
  exact ⟨h.2.1, h.1⟩

-- MARK: C4 — the error cases, exactly

/-- C4.  `flood_fill_in_bounds` returns an error if and only if the
(defaulted) bounding box has no intersection with the image bounds, or the
start point is outside the clamped bounding box, or a supplied secondary
image disagrees with the primary in size or stride.  All errors are
returned values of the `Result`; when none of the three conditions holds
the call returns Ok for every fuel. -/
theorem flood_fill_in_bounds_error_iff (fuel : Nat) (image : Image) (start : PointI)
    (fill_color : Color) (secondary_image : Option Image) (bounding_box : Option RectI) :
    (∃ e, (flood_fill_in_bounds fuel image start fill_color secondary_image
        bounding_box).result = .error e) ↔
      ((bounding_box.getD
          ⟨⟨0, 0⟩, ⟨(image.size.width : ℤ), (image.size.height : ℤ)⟩⟩).intersection
          ⟨⟨0, 0⟩, ⟨(image.size.width : ℤ), (image.size.height : ℤ)⟩⟩ = none ∨
        (∃ bb, (bounding_box.getD
          ⟨⟨0, 0⟩, ⟨(image.size.width : ℤ), (image.size.height : ℤ)⟩⟩).intersection
          ⟨⟨0, 0⟩, ⟨(image.size.width : ℤ), (image.size.height : ℤ)⟩⟩ = some bb ∧
          ¬ bb.contains start) ∨
        (∃ s, secondary_image = some s ∧
          (s.size ≠ image.size ∨ s.bytes_per_row ≠ image.bytes_per_row))) := by
  unfold flood_fill_in_bounds
  cases hbb : (bounding_box.getD
      ⟨⟨0, 0⟩, ⟨(image.size.width : ℤ), (image.size.height : ℤ)⟩⟩).intersection
      ⟨⟨0, 0⟩, ⟨(image.size.width : ℤ), (image.size.height : ℤ)⟩⟩ with
  | none =>
    simp only [hbb]
    exact ⟨fun _ => Or.inl (by simp), fun _ => ⟨_, rfl⟩⟩
  | some bb =>
    simp only [hbb]
    by_cases hc : bb.contains start
    · rw [if_neg (not_not_intro hc)]
      cases secondary_image with
      | none =>
        dsimp only
        constructor
        · rintro ⟨e, he⟩
          exfalso
          revert he
          cases fillLoop image.bytes_per_row false bb.min_x bb.max_x bb.min_y bb.max_y
            (unsigned_int_color start image.data image.bytes_per_row)
            fill_color.as_rgba_u32 fuel
            ⟨[start], image.data, [], start.x, start.x, start.y, start.y⟩ <;> simp
        · rintro (h | ⟨bb2, hbb2, hc2⟩ | ⟨s, hs, -⟩)
          · exact absurd h (by simp)
          · rw [← Option.some_inj.mp hbb2] at hc2
            exact absurd hc hc2
          · exact absurd hs (by simp)
      | some s =>
        by_cases hmis : s.size ≠ image.size ∨ s.bytes_per_row ≠ image.bytes_per_row
        · dsimp only
          rw [if_pos hmis]
          exact ⟨fun _ => Or.inr (Or.inr ⟨s, rfl, hmis⟩), fun _ => ⟨_, rfl⟩⟩
        · dsimp only
          rw [if_neg hmis]
          dsimp only
          constructor
          · rintro ⟨e, he⟩
            exfalso
            revert he
            cases fillLoop image.bytes_per_row true bb.min_x bb.max_x bb.min_y bb.max_y
              (unsigned_int_color start image.data image.bytes_per_row)
              fill_color.as_rgba_u32 fuel
              ⟨[start], image.data, s.data, start.x, start.x, start.y, start.y⟩ <;> simp
          · rintro (h | ⟨bb2, hbb2, hc2⟩ | ⟨s2, hs2, hm2⟩)
            · exact absurd h (by simp)
            · rw [← Option.some_inj.mp hbb2] at hc2
              exact absurd hc hc2
            · rw [← Option.some_inj.mp hs2] at hm2
              exact absurd hm2 hmis
    · rw [if_pos hc]
      exact ⟨fun _ => Or.inr (Or.inl ⟨bb, rfl, hc⟩), fun _ => ⟨_, rfl⟩⟩

/-- Witness for C4 (an iff with concrete instances on both sides): a start
point outside a 1×1 image errors; a start point inside does not. -/
theorem flood_fill_in_bounds_error_iff_witness :
    (∃ e, (flood_fill_in_bounds 3 ⟨[1, 2, 3, 4], ⟨1, 1⟩, 4⟩ ⟨5, 5⟩ ⟨0, 0, 0, 0⟩
        none none).result = .error e) ∧
    ¬ (∃ e, (flood_fill_in_bounds 3 ⟨[1, 2, 3, 4], ⟨1, 1⟩, 4⟩ ⟨0, 0⟩ ⟨0, 0, 0, 0⟩
        none none).result = .error e) := by
  constructor
  · exact (flood_fill_in_bounds_error_iff 3 ⟨[1, 2, 3, 4], ⟨1, 1⟩, 4⟩ ⟨5, 5⟩ ⟨0, 0, 0, 0⟩
      none none).mpr (Or.inr (Or.inl ⟨RectI.new 0 0 1 1, by decide, by decide⟩))
  · intro h
    have := (flood_fill_in_bounds_error_iff 3 ⟨[1, 2, 3, 4], ⟨1, 1⟩, 4⟩ ⟨0, 0⟩ ⟨0, 0, 0, 0⟩
      none none).mp h
    rcases this with h1 | ⟨bb, hbb, hc⟩ | ⟨s, hs, -⟩
    · exact absurd h1 (by decide)
    · rw [show bb = RectI.new 0 0 1 1 from by
        have : some bb = some (RectI.new 0 0 1 1) := by rw [← hbb]; decide
        exact Option.some_inj.mp this] at hc
      exact hc (by decide)
    · exact absurd hs (by simp)

-- MARK: C10 — errors leave both buffers untouched

/-- C10.  Whenever `flood_fill_in_bounds` returns an error, the primary
and secondary buffers in the outcome are byte-for-byte the input buffers:
every validation runs before any pixel write. -/
theorem flood_fill_in_bounds_error_unchanged (fuel : Nat) (image : Image) (start : PointI)
    (fill_color : Color) (secondary_image : Option Image) (bounding_box : Option RectI)
    (e : String)
    (h : (flood_fill_in_bounds fuel image start fill_color secondary_image
        bounding_box).result = .error e) :
    (flood_fill_in_bounds fuel image start fill_color secondary_image bounding_box).data =
      image.data ∧
    (flood_fill_in_bounds fuel image start fill_color secondary_image
        bounding_box).secondaryData = secondary_image.map (fun s => s.data) := by
  revert h
  unfold flood_fill_in_bounds
  dsimp only
  cases hbb : (bounding_box.getD
      ⟨⟨0, 0⟩, ⟨(image.size.width : ℤ), (image.size.height : ℤ)⟩⟩).intersection
      ⟨⟨0, 0⟩, ⟨(image.size.width : ℤ), (image.size.height : ℤ)⟩⟩ with
  | none =>
    simp only [hbb]
    exact fun _ => ⟨by trivial, by trivial⟩
  | some bb =>
    simp only [hbb]
    by_cases hc : bb.contains start
    · rw [if_neg (not_not_intro hc)]
      cases secondary_image with
      | none =>
        dsimp only
        cases fillLoop image.bytes_per_row false bb.min_x bb.max_x bb.min_y bb.max_y
          (unsigned_int_color start image.data image.bytes_per_row)
          fill_color.as_rgba_u32 fuel
          ⟨[start], image.data, [], start.x, start.x, start.y, start.y⟩ with
        | none => exact fun h => absurd h (by simp)
        | some st => exact fun h => absurd h (by simp)
      | some s =>
        by_cases hmis : s.size ≠ image.size ∨ s.bytes_per_row ≠ image.bytes_per_row
        · dsimp only
          rw [if_pos hmis]
          exact fun _ => ⟨rfl, rfl⟩
        · dsimp only
          rw [if_neg hmis]
          dsimp only
          cases fillLoop image.bytes_per_row true bb.min_x bb.max_x bb.min_y bb.max_y
            (unsigned_int_color start image.data image.bytes_per_row)
            fill_color.as_rgba_u32 fuel
            ⟨[start], image.data, s.data, start.x, start.x, start.y, start.y⟩ with
          | none => exact fun h => absurd h (by simp)
          | some st => exact fun h => absurd h (by simp)
    · rw [if_pos hc]
      exact fun _ => ⟨rfl, rfl⟩

/-- Witness for C10: the out-of-bounds start point of the C4 discussion,
with a mismatched secondary image present. -/
theorem flood_fill_in_bounds_error_unchanged_witness :
    (flood_fill_in_bounds 3 ⟨[1, 2, 3, 4], ⟨1, 1⟩, 4⟩ ⟨7, 0⟩ ⟨9, 9, 9, 9⟩
        (some ⟨[5, 6, 7, 8], ⟨1, 1⟩, 4⟩) none).data = [1, 2, 3, 4] ∧
    (flood_fill_in_bounds 3 ⟨[1, 2, 3, 4], ⟨1, 1⟩, 4⟩ ⟨7, 0⟩ ⟨9, 9, 9, 9⟩
        (some ⟨[5, 6, 7, 8], ⟨1, 1⟩, 4⟩) none).secondaryData = some [5, 6, 7, 8] := by
  have h := flood_fill_in_bounds_error_unchanged 3 ⟨[1, 2, 3, 4], ⟨1, 1⟩, 4⟩ ⟨7, 0⟩
    ⟨9, 9, 9, 9⟩ (some ⟨[5, 6, 7, 8], ⟨1, 1⟩, 4⟩) none
    "Point outside of image bounds." rfl
  exact ⟨h.1, h.2⟩

/-- C1.  The claimed string round trip fails on the code: `as_str` renders
`ColorDodge` as "color-dodge", but the `from_str` match has no colour-dodge
arm at all, so `from_str (as_str ColorDodge)` is `none` rather than
`some ColorDodge`.  (The numeric round trip does hold, and every other
variant's string round trip holds; the conjunction also records those.) -/
theorem blendMode_from_str_misses_color_dodge :
    BlendMode.from_str (BlendMode.as_str .ColorDodge) = none ∧
    BlendMode.as_str .ColorDodge = "color-dodge" ∧
    (∀ m : BlendMode, BlendMode.from_primitive m.toPrimitive = some m) ∧
    (∀ m : BlendMode, m = .ColorDodge ∨ BlendMode.from_str m.as_str = some m) := by
  refine ⟨by decide, by decide, ?_, ?_⟩
  · intro m; cases m <;> decide
  · intro m; cases m <;> first | exact Or.inl rfl | exact Or.inr (by decide)

end Graphics
